import Mathlib

/-!
Shallow embedding of `src/OT_tracker.py` (OT Meal Tracker).

The program is a spreadsheet-backed form tool.  The parts embedded here are
the pure cores of its helpers and tab renderers:

* `_to_date` (lines 24-38): heterogeneous date normalization;
* `find_row_for_date` (lines 59-67): linear scan of column 1 for a date;
* `sanitize_filename` (lines 69-73): regex-based filename cleaning;
* `read_bills_index` (lines 81-86): index read with catch-all fallback;
* the bill-splitting arithmetic and selection validation of `render_ot_tab`
  (lines 109-166), the claim-marking loop (lines 168-169);
* the upload-collision loop of `render_bills_repo_tab` (lines 308-317) and
  the name filter (lines 254-257).

Python `date`/`datetime` values are modeled as year/month/day triples, cell
values as an inductive `PyValue`, the worksheet as a list of column-1 values
(for the scan) and as a function grid (for the cell writes), and the
filesystem as the list of filenames already present in the date folder.
Strings are modeled over ASCII: Python's Unicode-aware `\w`, `\s`,
`str.strip` and `str.lower` are rendered by their ASCII restrictions.
-/

/-- Calendar date as produced by Python `datetime.date` (year, month, day). -/
structure PyDate where
  year : Nat
  month : Nat
  day : Nat
deriving DecidableEq, Repr

/-- Gregorian leap-year rule used by Python's `datetime` module. -/
def isLeapYear (y : Nat) : Bool :=
  y % 4 == 0 && (y % 100 != 0 || y % 400 == 0)

/-- Number of days in a month, as validated by the `datetime.date` constructor. -/
def daysInMonth (y m : Nat) : Nat :=
  if m == 2 then (if isLeapYear y then 29 else 28)
  else if m == 4 || m == 6 || m == 9 || m == 11 then 30
  else 31

/-- Range validation performed by the `datetime.date` constructor: year in
1..9999, month in 1..12, day in 1..days-in-month.  Out-of-range components
raise `ValueError` in Python, modeled as `none`. -/
def mkValidDate (y m d : Nat) : Option PyDate :=
  if 1 ≤ y ∧ y ≤ 9999 ∧ 1 ≤ m ∧ m ≤ 12 ∧ 1 ≤ d ∧ d ≤ daysInMonth y m then
    some ⟨y, m, d⟩
  else
    none

/-- Numeric value of a decimal digit character. -/
def digitVal (c : Char) : Nat := c.toNat - 48

/-- Validity of the time-of-day part accepted by `datetime.fromisoformat`
after the separator: `HH`, `HH:MM` or `HH:MM:SS` with in-range fields
(fractional seconds and offsets are not exercised by this program's data and
are not modeled). -/
def isoTimeOk : List Char → Bool
  | [h1, h2] =>
      h1.isDigit && h2.isDigit && digitVal h1 * 10 + digitVal h2 < 24
  | [h1, h2, c1, m1, m2] =>
      h1.isDigit && h2.isDigit && digitVal h1 * 10 + digitVal h2 < 24 &&
      c1 == ':' && m1.isDigit && m2.isDigit && digitVal m1 * 10 + digitVal m2 < 60
  | [h1, h2, c1, m1, m2, c2, s1, s2] =>
      h1.isDigit && h2.isDigit && digitVal h1 * 10 + digitVal h2 < 24 &&
      c1 == ':' && m1.isDigit && m2.isDigit && digitVal m1 * 10 + digitVal m2 < 60 &&
      c2 == ':' && s1.isDigit && s2.isDigit && digitVal s1 * 10 + digitVal s2 < 60
  | _ => false

/-- Characters allowed after the ten date characters: nothing, or a single
separator character (any character, per `fromisoformat`) followed by a valid
time-of-day. -/
def isoRestOk : List Char → Bool
  | [] => true
  | _ :: t => isoTimeOk t

/-- Model of `datetime.fromisoformat(s).date()` (line 33): the string must
start with exactly `YYYY-MM-DD`, optionally followed by a separator and a
time-of-day; the date components must be in range.  Any parse failure raises
in Python, modeled as `none`. -/
def parseISO (s : String) : Option PyDate :=
  match s.data with
  | y1 :: y2 :: y3 :: y4 :: h1 :: m1 :: m2 :: h2 :: d1 :: d2 :: rest =>
      if y1.isDigit && y2.isDigit && y3.isDigit && y4.isDigit && h1 == '-' &&
         m1.isDigit && m2.isDigit && h2 == '-' && d1.isDigit && d2.isDigit &&
         isoRestOk rest then
        mkValidDate
          (digitVal y1 * 1000 + digitVal y2 * 100 + digitVal y3 * 10 + digitVal y4)
          (digitVal m1 * 10 + digitVal m2)
          (digitVal d1 * 10 + digitVal d2)
      else none
  | _ => none

/-- Month number of a lower-cased three-letter English month abbreviation,
the set matched (case-insensitively) by `strptime`'s `%b`. -/
def monthOfAbbrevLower : Char → Char → Char → Option Nat
  | 'j', 'a', 'n' => some 1
  | 'f', 'e', 'b' => some 2
  | 'm', 'a', 'r' => some 3
  | 'a', 'p', 'r' => some 4
  | 'm', 'a', 'y' => some 5
  | 'j', 'u', 'n' => some 6
  | 'j', 'u', 'l' => some 7
  | 'a', 'u', 'g' => some 8
  | 's', 'e', 'p' => some 9
  | 'o', 'c', 't' => some 10
  | 'n', 'o', 'v' => some 11
  | 'd', 'e', 'c' => some 12
  | _, _, _ => none

/-- Case-insensitive month-abbreviation lookup. -/
def monthOfAbbrev (a b c : Char) : Option Nat :=
  monthOfAbbrevLower a.toLower b.toLower c.toLower

/-- Model of `datetime.strptime(s, "%d-%b-%Y").date()` (line 36): a one- or
two-digit day, a dash, a three-letter month abbreviation (case-insensitive),
a dash, and a four-digit year, matching the whole string; the resulting
components are validated by the `datetime` constructor.  Any failure raises
in Python, modeled as `none`. -/
def parseDMY (s : String) : Option PyDate :=
  match s.data with
  | [d1, h1, a, b, c, h2, y1, y2, y3, y4] =>
      if d1.isDigit && h1 == '-' && h2 == '-' &&
         y1.isDigit && y2.isDigit && y3.isDigit && y4.isDigit then
        match monthOfAbbrev a b c with
        | some m =>
            mkValidDate
              (digitVal y1 * 1000 + digitVal y2 * 100 + digitVal y3 * 10 + digitVal y4)
              m (digitVal d1)
        | Option.none => none
      else none
  | [e1, e2, h1, a, b, c, h2, y1, y2, y3, y4] =>
      if e1.isDigit && e2.isDigit && h1 == '-' && h2 == '-' &&
         y1.isDigit && y2.isDigit && y3.isDigit && y4.isDigit then
        match monthOfAbbrev a b c with
        | some m =>
            mkValidDate
              (digitVal y1 * 1000 + digitVal y2 * 100 + digitVal y3 * 10 + digitVal y4)
              m (digitVal e1 * 10 + digitVal e2)
        | Option.none => none
      else none
  | _ => none

/-- Cell values reaching `_to_date`: Python `None`, a `datetime` (here only
its date part, which is all `_to_date` uses), a `date`, a string, or an
integer (any other value falls to the string branches via `str(x)`). -/
inductive PyValue where
  | pyNone : PyValue
  | dtime : PyDate → PyValue
  | dateV : PyDate → PyValue
  | str : String → PyValue
  | intV : Int → PyValue
deriving DecidableEq, Repr

/-- Zero-padded two-digit rendering, as in Python `date.isoformat`. -/
def pad2 (n : Nat) : String :=
  if n < 10 then "0" ++ Nat.repr n else Nat.repr n

/-- Zero-padded four-digit rendering, as in Python `date.isoformat`. -/
def pad4 (n : Nat) : String :=
  if n < 10 then "000" ++ Nat.repr n
  else if n < 100 then "00" ++ Nat.repr n
  else if n < 1000 then "0" ++ Nat.repr n
  else Nat.repr n

/-- Model of `date.isoformat()`: `YYYY-MM-DD`. -/
def isoDateString (d : PyDate) : String :=
  pad4 d.year ++ "-" ++ pad2 d.month ++ "-" ++ pad2 d.day

/-- Model of Python `str(x)` on the cell values above (a `datetime` prints
its date part followed by a time of day; the time is irrelevant to
`_to_date`, which never reaches the string branches for `datetime`). -/
def pyStr : PyValue → String
  | PyValue.pyNone => "None"
  | PyValue.dtime d => isoDateString d ++ " 00:00:00"
  | PyValue.dateV d => isoDateString d
  | PyValue.str s => s
  | PyValue.intV n => toString n

/-- String branches of `_to_date` (lines 32-38): try `fromisoformat` first,
fall back to `strptime("%d-%b-%Y")`, else `None`. -/
def tryStringParses (s : String) : Option PyDate :=
  match parseISO s with
  | some d => some d
  | Option.none => parseDMY s

/-- Model of `_to_date` (lines 24-38), translated branch by branch from the
source: `None` short-circuits, a `datetime` or `date` yields its date part,
anything else is stringified and parsed. -/
def toDate : PyValue → Option PyDate
  | PyValue.pyNone => none
  | PyValue.dtime d => some d
  | PyValue.dateV d => some d
  | PyValue.str s => tryStringParses s
  | PyValue.intV n => tryStringParses (toString n)

/-- Written from the spec's words for the Date Normalizer (spec section 4.1
and claim C5): attempt (1) date/time value, then (2) ISO-8601 parse of the
string form, then (3) the day-abbreviated-month-year pattern, and (4)
otherwise (including `None`) the non-matching result. -/
def toDateSpec (x : PyValue) : Option PyDate :=
  match x with
  | PyValue.dtime d => some d
  | PyValue.dateV d => some d
  | x =>
      match parseISO (pyStr x) with
      | some d => some d
      | Option.none =>
          match parseDMY (pyStr x) with
          | some d => some d
          | Option.none => none

/-- Scan loop of `find_row_for_date` (lines 61-66): enumerate the column-1
values from the given row index, return the first index whose normalized
date equals the selected date.  In Python, `_to_date(cell) == selected_date`
is false when `_to_date` returns `None`, so the test is equality with
`some`. -/
def findRowAux (d : PyDate) : Nat → List PyValue → Option Nat
  | _, [] => none
  | idx, v :: rest =>
      if toDate v = some d then some idx else findRowAux d (idx + 1) rest

/-- Model of `find_row_for_date` (lines 59-67): `rows` holds the column-1
cell values of worksheet rows 2, 3, ... in file order (`iter_rows` with
`min_row=2`, `min_col=1`, `max_col=1`), and enumeration starts at index 2. -/
def find_row_for_date (rows : List PyValue) (selectedDate : PyDate) : Option Nat :=
  findRowAux selectedDate 2 rows

/-- Required headcount of `render_ot_tab`: when the bill amount is not
positive the tab returns before any selection (lines 109-111), i.e. no
people are required; otherwise `math.ceil(bill_amount / 750)` (line 113).
The bill amount is an integer (`st.number_input` with integer value and
step); Python's float division by 750 is modeled as exact ceiling division,
which agrees with the code for all amounts below 2^53. -/
def requiredCount (billAmount : Int) : Nat :=
  if billAmount ≤ 0 then 0 else (billAmount.toNat + 749) / 750

/-- Selection check of the submit handler (line 163): the claim is rejected
exactly when `required_people > 0 and len(selected_people) !=
min(required_people, len(available_people))`. -/
def submitSelectionRejected (requiredPeople : Nat)
    (selectedPeople availablePeople : List String) : Bool :=
  decide (0 < requiredPeople ∧
    selectedPeople.length ≠ min requiredPeople availablePeople.length)

/-- Claim-marking loop (lines 168-169): for each selected person, the cell
at the target row and that person's header column is set to the string
marker `"OT"`.  The worksheet is modeled as a function from (row, column)
to the optional string cell value, and `nameToCol` is the header mapping of
`get_name_to_col`. -/
def submitClaims (g : Nat → Nat → Option String) (rowIndex : Nat)
    (nameToCol : String → Nat) (selected : List String) :
    Nat → Nat → Option String :=
  selected.foldl
    (fun acc person r c =>
      if r = rowIndex ∧ c = nameToCol person then some "OT" else acc r c)
    g

/-- Whitespace class of Python's ASCII `\s` and `str.strip`. -/
def isPySpace (c : Char) : Bool :=
  c == ' ' || c == '\t' || c == '\n' || c == '\r' || c == '\x0b' || c == '\x0c'

/-- Character class kept by the first substitution of `sanitize_filename`
(line 71, pattern `[^\w\-. ]`): word characters (ASCII letters, digits,
underscore), hyphen, period, space. -/
def isAllowedChar (c : Char) : Bool :=
  c.isAlphanum || c == '_' || c == '-' || c == '.' || c == ' '

/-- Model of `str.strip()` (line 70): drop leading and trailing whitespace. -/
def pyStrip (cs : List Char) : List Char :=
  ((cs.dropWhile isPySpace).reverse.dropWhile isPySpace).reverse

/-- Model of `re.sub(pat + "+", "_", s)` for a character-class pattern
(lines 71-72), as the left-to-right scan the regex engine performs: a
character of the class extends the current match (already replaced, so
nothing is emitted) or starts a new match (emitting the single replacement
underscore); the flag records whether the previous character was part of a
match.  `bad` is membership in the character class. -/
def reSub (bad : Char → Bool) : List Char → Bool → List Char
  | [], _ => []
  | c :: cs, inRun =>
      if bad c then
        (if inRun then reSub bad cs true else '_' :: reSub bad cs true)
      else c :: reSub bad cs false

/-- Model of `sanitize_filename` (lines 69-73): strip, replace runs of
characters outside the allowed class (`re.sub(r"[^\w\-. ]+", "_", s)`),
replace whitespace runs (`re.sub(r"\s+", "_", s)`), truncate to 150
characters (`s[:150]`). -/
def sanitize_filename (s : String) : String :=
  String.mk
    ((reSub isPySpace (reSub (fun c => !isAllowedChar c) (pyStrip s.data) false) false).take 150)

/-- Per-character replacement of characters outside the allowed class,
written from claim C8's words ("every character outside the class ...
replaced by an underscore"). -/
def subBadEach (cs : List Char) : List Char :=
  cs.map (fun c => if isAllowedChar c then c else '_')

/-- Run replacement written from the spec's words: every maximal run of
characters of the class is replaced by a single underscore (the whole run
is dropped via `dropWhile` and one underscore stands for it). -/
def collapseMaximalRuns (bad : Char → Bool) : List Char → List Char
  | [] => []
  | c :: cs =>
      if bad c then '_' :: collapseMaximalRuns bad (cs.dropWhile bad)
      else c :: collapseMaximalRuns bad cs
termination_by cs => cs.length
decreasing_by
  · simp only [List.length_cons]
    exact Nat.lt_succ_of_le (List.Sublist.length_le (List.dropWhile_sublist _))
  · simp only [List.length_cons]; omega

/-- Filename sanitization as claim C8 states it: strip, replace every single
character outside the allowed class by an underscore, collapse whitespace
runs to a single underscore, truncate to 150 characters. -/
def sanitizeClaimed (s : String) : String :=
  String.mk ((collapseMaximalRuns isPySpace (subBadEach (pyStrip s.data))).take 150)

/-- Filename sanitization as amended: strip, replace every maximal run of
characters outside the allowed class by a single underscore, collapse
whitespace runs to a single underscore, truncate to 150 characters. -/
def sanitizeAmended (s : String) : String :=
  String.mk
    ((collapseMaximalRuns isPySpace
        (collapseMaximalRuns (fun c => !isAllowedChar c) (pyStrip s.data))).take 150)

/-- Decimal digit character, value 0-9. -/
def decDigit (d : Nat) : Char := Char.ofNat (48 + d)

/-- Decimal rendering of a natural number, modeling Python's rendering of
the integer `counter` inside the f-string at line 315. -/
def natDecimal (n : Nat) : List Char :=
  if n < 10 then [decDigit n]
  else natDecimal (n / 10) ++ [decDigit (n % 10)]
termination_by n
decreasing_by
  exact Nat.div_lt_self (by omega) (by omega)

/-- Model of `os.path.splitext` (line 312) on a plain filename (the sanitized
names contain no path separator): split at the last period, unless every
character before that period is itself a period (then there is no
extension). -/
def splitext (s : String) : String × String :=
  let cs := s.data
  let k := (cs.reverse.takeWhile (fun c => c != '.')).length
  if k = cs.length then (s, "")
  else
    let i := cs.length - k - 1
    if (cs.take i).any (fun c => c != '.') then
      (String.mk (cs.take i), String.mk (cs.drop i))
    else (s, "")

/-- Candidate stored filename for a given counter (lines 308 and 315):
counter 0 is the original `base ++ ext`, counter k ≥ 1 is
`base ++ "__" ++ k ++ ext`. -/
def candidateName (base ext : String) (k : Nat) : String :=
  if k = 0 then base ++ ext
  else base ++ "__" ++ String.mk (natDecimal k) ++ ext

/-- Collision loop of lines 313-317: starting from candidate `k`, return the
first candidate not already present in the date folder `fs`.  The Python
`while` loop carries no fuel; here the fuel is set by the caller high enough
to make the loop total (the loop always terminates because the folder is
finite and candidates are pairwise distinct). -/
def resolveStoredAux (fs : List String) (base ext : String) :
    Nat → Nat → String
  | 0, k => candidateName base ext k
  | fuel + 1, k =>
      if candidateName base ext k ∈ fs then
        resolveStoredAux fs base ext fuel (k + 1)
      else candidateName base ext k

/-- Stored filename construction of line 308:
`sanitize_filename(userName) ++ "__" ++ sanitize_filename(originalName)`. -/
def storedFilename (userName origName : String) : String :=
  sanitize_filename userName ++ "__" ++ sanitize_filename origName

/-- Model of the upload store's path resolution (lines 308-317): split the
candidate filename into base and extension, then run the collision loop
against the filenames `fs` already present in the date folder. -/
def storeBillPath (fs : List String) (filename : String) : String :=
  resolveStoredAux fs (splitext filename).1 (splitext filename).2
    (fs.length + 1) 0

/-- Row of the bills index (`bills_index.csv`), per `append_bill_index`
(lines 88-98).  All fields are stored as strings in the CSV. -/
structure UploadRecord where
  ot_date : String
  user_name : String
  file_name : String
  stored_path : String
  uploaded_at : String
deriving DecidableEq, Repr

/-- Model of Python `str.lower()` restricted to ASCII: lower-case each
character. -/
def pyLower (s : String) : String :=
  String.mk (s.data.map Char.toLower)

/-- Name filter of `render_bills_repo_tab` (lines 254-257): an empty frame
is left alone; the sentinel `"All"` returns everything; otherwise keep the
records whose `user_name` equals the filter name case-insensitively
(`.str.lower() == filter_name.lower()`, ASCII model of `lower`). -/
def listByName (filterName : String) (df : List UploadRecord) : List UploadRecord :=
  if df.isEmpty then df
  else if filterName == "All" then df
  else df.filter (fun r => pyLower r.user_name == pyLower filterName)

/-- Fixed header of the bills index (lines 78 and 86). -/
def billsIndexColumns : List String :=
  ["ot_date", "user_name", "file_name", "stored_path", "uploaded_at"]

/-- Bills index as a data frame: column names plus record rows. -/
structure BillsIndex where
  columns : List String
  rows : List UploadRecord
deriving Repr

/-- Empty data frame with the fixed five-column header (lines 78 and 86). -/
def emptyBillsIndex : BillsIndex :=
  { columns := billsIndexColumns, rows := [] }

/-- Model of `read_bills_index` (lines 81-86): the result of attempting
`pd.read_csv` is either a parsed frame or an exception; any exception is
caught and replaced by the empty frame with the fixed header. -/
def read_bills_index (parsed : Except String BillsIndex) : BillsIndex :=
  match parsed with
  | Except.ok df => df
  | Except.error _ => emptyBillsIndex

/-- C1: for every bill amount b, the required headcount equals 0 when b ≤ 0
and the ceiling of b / 750 otherwise — characterized as the least count n
with b ≤ 750·n — and in particular requiredCount 0 = 0, requiredCount 750 =
1, requiredCount 751 = 2 and requiredCount 1500 = 2. -/
theorem requiredCount_correct :
    (∀ b : Int, b ≤ 0 → requiredCount b = 0) ∧
    (∀ b : Int, 0 < b →
      b ≤ 750 * (requiredCount b : Int) ∧ 750 * ((requiredCount b : Int) - 1) < b) ∧
    requiredCount 0 = 0 ∧ requiredCount 750 = 1 ∧ requiredCount 751 = 2 ∧
    requiredCount 1500 = 2 := by
  refine ⟨fun b hb => by simp [requiredCount, hb], fun b hb => ?_,
    by decide, by decide, by decide, by decide⟩
  rw [requiredCount, if_neg (by omega)]
  have h1 := Nat.div_add_mod (b.toNat + 749) 750
  have h2 : (b.toNat + 749) % 750 < 750 := Nat.mod_lt _ (by omega)
  constructor <;> omega

/-- Witness for C1 at the concrete bill amount 751. -/
theorem requiredCount_correct_witness :
    (0 : Int) < 751 ∧
      (751 : Int) ≤ 750 * (requiredCount 751 : Int) ∧
      750 * ((requiredCount 751 : Int) - 1) < 751 :=
  ⟨by decide, requiredCount_correct.2.1 751 (by decide)⟩

/-- C2: with required count r > 0, the submit check accepts a selection (is
not rejected) iff the selection size equals min r (number of available
names); any other size is rejected. -/
theorem submitSelectionRejected_iff (requiredPeople : Nat)
    (selectedPeople availablePeople : List String)
    (hreq : 0 < requiredPeople) :
    submitSelectionRejected requiredPeople selectedPeople availablePeople = false ↔
      selectedPeople.length = min requiredPeople availablePeople.length := by
  simp [submitSelectionRejected, hreq]

/-- Witness for C2: required 1, one name selected out of two available. -/
theorem submitSelectionRejected_iff_witness :
    submitSelectionRejected 1 ["Alice"] ["Alice", "Bob"] = false :=
  (submitSelectionRejected_iff 1 ["Alice"] ["Alice", "Bob"] (by decide)).mpr (by decide)

/-- Pointwise characterization of the claim-marking loop: a cell holds "OT"
afterwards exactly when it is in the target row at a selected name's column;
every other cell keeps its previous value. -/
theorem submitClaims_apply (g : Nat → Nat → Option String) (rowIndex : Nat)
    (nameToCol : String → Nat) (selected : List String) (r c : Nat) :
    submitClaims g rowIndex nameToCol selected r c =
      if r = rowIndex ∧ ∃ p ∈ selected, c = nameToCol p then some "OT" else g r c := by
  induction selected generalizing g with
  | nil => simp [submitClaims]
  | cons q sel ih =>
      rw [show submitClaims g rowIndex nameToCol (q :: sel) =
        submitClaims (fun r c => if r = rowIndex ∧ c = nameToCol q then some "OT" else g r c)
          rowIndex nameToCol sel from rfl]
      rw [ih]
      by_cases h1 : r = rowIndex
      · by_cases h2 : ∃ p ∈ sel, c = nameToCol p
        · simp [h1, h2]
        · by_cases h3 : c = nameToCol q
          · simp [h1, h2, h3]
          · simp [h1, h2, h3]
      · simp [h1]

/-- C3: submitting a claim sets exactly the cells (target row, column of
each selected name) to the marker "OT"; every cell outside the target row,
and every target-row cell of an unselected column, is unchanged; and
re-submitting a name whose cell already holds "OT" leaves that cell's value
the same. -/
theorem submitClaims_frame (g : Nat → Nat → Option String) (rowIndex : Nat)
    (nameToCol : String → Nat) (selected : List String) :
    (∀ p, p ∈ selected →
      submitClaims g rowIndex nameToCol selected rowIndex (nameToCol p) = some "OT") ∧
    (∀ r c, (r ≠ rowIndex ∨ ∀ p, p ∈ selected → c ≠ nameToCol p) →
      submitClaims g rowIndex nameToCol selected r c = g r c) ∧
    (∀ p, p ∈ selected → g rowIndex (nameToCol p) = some "OT" →
      submitClaims g rowIndex nameToCol selected rowIndex (nameToCol p) =
        g rowIndex (nameToCol p)) := by
  refine ⟨?_, ?_, ?_⟩
  · intro p hp
    rw [submitClaims_apply, if_pos ⟨rfl, p, hp, rfl⟩]
  · intro r c hrc
    rw [submitClaims_apply, if_neg]
    rintro ⟨hr, p, hp, hc⟩
    rcases hrc with h | h
    · exact h hr
    · exact h p hp hc
  · intro p hp hg
    rw [submitClaims_apply, if_pos ⟨rfl, p, hp, rfl⟩, hg]

/-- Witness for C3: marking "Alice" on an empty grid sets her target-row
cell and leaves a cell of another row empty. -/
theorem submitClaims_frame_witness :
    submitClaims (fun _ _ => Option.none) 2 (fun _ => 3) ["Alice"] 2 3 = some "OT" ∧
    submitClaims (fun _ _ => Option.none) 2 (fun _ => 3) ["Alice"] 5 3 = Option.none :=
  ⟨(submitClaims_frame (fun _ _ => Option.none) 2 (fun _ => 3) ["Alice"]).1 "Alice"
      (List.mem_singleton.mpr rfl),
   (submitClaims_frame (fun _ _ => Option.none) 2 (fun _ => 3) ["Alice"]).2.1 5 3
      (Or.inl (by decide))⟩

/-- C9: the bill query returns exactly the records whose user name matches
the filter name case-insensitively and exactly, and returns every record
when the filter is the sentinel "All". -/
theorem listByName_mem_iff (filterName : String) (df : List UploadRecord) (r : UploadRecord) :
    r ∈ listByName filterName df ↔
      r ∈ df ∧ (filterName = "All" ∨ pyLower r.user_name = pyLower filterName) := by
  unfold listByName
  by_cases hemp : df.isEmpty
  · rw [if_pos hemp, List.isEmpty_iff.mp hemp]
    simp
  · rw [if_neg hemp]
    by_cases hall : filterName = "All"
    · rw [if_pos (by simp [hall])]
      simp [hall]
    · rw [if_neg (by simpa using hall)]
      simp [List.mem_filter, hall]

/-- Witness for C9: a record with user name "Bob" is returned when
filtering by "bob". -/
theorem listByName_mem_iff_witness :
    ({ ot_date := "2025-01-02", user_name := "Bob", file_name := "r.pdf",
       stored_path := "p", uploaded_at := "t" } : UploadRecord) ∈
      listByName "bob"
        [{ ot_date := "2025-01-02", user_name := "Bob", file_name := "r.pdf",
           stored_path := "p", uploaded_at := "t" }] :=
  (listByName_mem_iff "bob" _ _).mpr ⟨List.mem_singleton.mpr rfl, Or.inr (by decide)⟩

/-- C10: a failed read of the upload index yields the empty frame with the
fixed five-column header rather than an error, so the bill query on it
returns nothing; a successful read is passed through. -/
theorem read_bills_index_fallback :
    (∀ err : String, read_bills_index (Except.error err) = emptyBillsIndex) ∧
    (∀ err : String, (read_bills_index (Except.error err)).columns = billsIndexColumns) ∧
    (∀ err filterName : String,
      listByName filterName (read_bills_index (Except.error err)).rows = []) ∧
    (∀ df : BillsIndex, read_bills_index (Except.ok df) = df) :=
  ⟨fun _ => rfl, fun _ => rfl, fun _ _ => rfl, fun _ => rfl⟩

/-- Scan loop related to the library first-index search: the result is the
first matching position offset by the start index. -/
theorem findRowAux_eq_findIdx (d : PyDate) : ∀ (rows : List PyValue) (k : Nat),
    findRowAux d k rows =
      (rows.findIdx? (fun v => decide (toDate v = some d))).map (fun i => i + k) := by
  intro rows
  induction rows with
  | nil => intro k; rfl
  | cons v rest ih =>
      intro k
      rw [findRowAux, List.findIdx?_cons]
      by_cases hv : toDate v = some d
      · rw [if_pos hv, if_pos (by simpa using hv)]
        simp
      · rw [if_neg hv, if_neg (by simpa using hv), List.findIdx?_succ, ih (k + 1)]
        cases rest.findIdx? (fun v => decide (toDate v = some d)) with
        | none => rfl
        | some i => simp; omega

/-- Scan loop soundness: a returned index is at least the start index,
its row matches, and every earlier row does not match. -/
theorem findRowAux_first (d : PyDate) : ∀ (rows : List PyValue) (k i : Nat),
    findRowAux d k rows = some i →
      k ≤ i ∧ (∃ v, rows.get? (i - k) = some v ∧ toDate v = some d) ∧
      ∀ j, j < i - k → ∀ w, rows.get? j = some w → toDate w ≠ some d := by
  intro rows
  induction rows with
  | nil => intro k i h; simp [findRowAux] at h
  | cons v rest ih =>
      intro k i h
      rw [findRowAux] at h
      by_cases hv : toDate v = some d
      · rw [if_pos hv] at h
        have hk : k = i := by injection h
        subst hk
        refine ⟨le_refl _, ⟨v, by simp, hv⟩, ?_⟩
        intro j hj
        simp at hj
      · rw [if_neg hv] at h
        obtain ⟨hk, ⟨w, hw, hwd⟩, hfirst⟩ := ih (k + 1) i h
        refine ⟨by omega, ⟨w, ?_, hwd⟩, ?_⟩
        · rw [show i - k = (i - (k + 1)) + 1 by omega]
          simpa using hw
        · intro j hj w2 hw2 hc
          cases j with
          | zero =>
              have : w2 = v := by simpa using hw2.symm
              rw [this] at hc
              exact hv hc
          | succ j2 =>
              have hj2 : j2 < i - (k + 1) := by omega
              exact hfirst j2 hj2 w2 (by simpa using hw2) hc

/-- C4: the row lookup scans the column-1 values (rows 2 onward, file
order), returning 2 plus the first matching position; it returns none
exactly when no row's normalized date equals the target; and a returned
index i points at a matching row (i ≥ 2) all of whose predecessors do not
match, so the first of several duplicate dates wins. -/
theorem find_row_spec (rows : List PyValue) (d : PyDate) :
    find_row_for_date rows d =
      (rows.findIdx? (fun v => decide (toDate v = some d))).map (fun i => i + 2) ∧
    (find_row_for_date rows d = none ↔ ∀ v ∈ rows, toDate v ≠ some d) ∧
    (∀ i, find_row_for_date rows d = some i →
      2 ≤ i ∧ (∃ v, rows.get? (i - 2) = some v ∧ toDate v = some d) ∧
      ∀ j, j < i - 2 → ∀ w, rows.get? j = some w → toDate w ≠ some d) := by
  refine ⟨findRowAux_eq_findIdx d rows 2, ?_, fun i h => findRowAux_first d rows 2 i h⟩
  rw [find_row_for_date, findRowAux_eq_findIdx d rows 2]
  cases hf : rows.findIdx? (fun v => decide (toDate v = some d)) with
  | none =>
      simp only [Option.map_none']
      constructor
      · intro _ v hv
        have := List.findIdx?_eq_none_iff.mp hf v hv
        simpa using this
      · intro _; trivial
  | some j =>
      simp only [Option.map_some']
      constructor
      · intro h; cases h
      · intro hall
        have : ∀ v ∈ rows, (fun v => decide (toDate v = some d)) v = false := by
          intro v hv
          simpa using hall v hv
        rw [List.findIdx?_eq_none_iff.mpr this] at hf
        cases hf

/-- Witness for C4: in a sheet whose column 1 holds a non-date string (row
2) and the date 2025-01-02 (row 3), the lookup returns row 3. -/
theorem find_row_spec_witness :
    find_row_for_date [PyValue.str "x", PyValue.str "2025-01-02"] ⟨2025, 1, 2⟩ = some 3 :=
  ((find_row_spec [PyValue.str "x", PyValue.str "2025-01-02"] ⟨2025, 1, 2⟩).1).trans (by decide)

/-- Format exclusion: a string accepted by the `%d-%b-%Y` parser is never
accepted by the ISO parser (its dash sits where the ISO form requires a
digit), so the fallback order of `_to_date` cannot mask the fallback
pattern. -/
theorem parseISO_eq_none_of_parseDMY (s : String) (d : PyDate)
    (h : parseDMY s = some d) : parseISO s = none := by
  have hdig : ('-' : Char).isDigit = false := by decide
  unfold parseDMY at h
  split at h
  · rename_i d1 h1 a b c h2 y1 y2 y3 y4 heq
    split at h
    · rename_i hcond
      simp only [Bool.and_eq_true, beq_iff_eq] at hcond
      obtain ⟨⟨⟨⟨⟨⟨hd1, hh1⟩, hh2⟩, hy1⟩, hy2⟩, hy3⟩, hy4⟩ := hcond
      subst hh1
      unfold parseISO
      rw [heq]
      simp [hdig]
    · exact absurd h (by simp)
  · rename_i e1 e2 h1 a b c h2 y1 y2 y3 y4 heq
    split at h
    · rename_i hcond
      simp only [Bool.and_eq_true, beq_iff_eq] at hcond
      obtain ⟨⟨⟨⟨⟨⟨⟨he1, he2⟩, hh1⟩, hh2⟩, hy1⟩, hy2⟩, hy3⟩, hy4⟩ := hcond
      subst hh1
      unfold parseISO
      rw [heq]
      simp [hdig]
    · exact absurd h (by simp)
  · exact absurd h (by simp)

/-- C5: the date normalizer agrees everywhere with the spec's staged
description — date/time values yield their date part, otherwise an ISO
parse of the string form is attempted, then the day-abbreviated-month-year
pattern, and every remaining input (including `None`) yields the
non-matching result; totality holds because both sides are total
functions. -/
theorem toDate_eq_toDateSpec : ∀ x : PyValue, toDate x = toDateSpec x := by
  intro x
  cases x with
  | pyNone => rfl
  | dtime d => rfl
  | dateV d => rfl
  | str s =>
      show tryStringParses s = toDateSpec (PyValue.str s)
      have hspec : toDateSpec (PyValue.str s) =
          (match parseISO s with
           | some d => some d
           | Option.none =>
               match parseDMY s with
               | some d => some d
               | Option.none => none) := rfl
      rw [hspec]
      unfold tryStringParses
      cases parseISO s with
      | some d => rfl
      | none =>
          cases parseDMY s with
          | some d => rfl
          | none => rfl
  | intV n =>
      show tryStringParses (toString n) = toDateSpec (PyValue.intV n)
      have hspec : toDateSpec (PyValue.intV n) =
          (match parseISO (toString n) with
           | some d => some d
           | Option.none =>
               match parseDMY (toString n) with
               | some d => some d
               | Option.none => none) := rfl
      rw [hspec]
      unfold tryStringParses
      cases parseISO (toString n) with
      | some d => rfl
      | none =>
          cases parseDMY (toString n) with
          | some d => rfl
          | none => rfl

/-- C6: normalization is idempotent (feeding back a recognized date yields
the same date) and format-independent (an ISO string and a
day-month-abbreviation string denoting the same calendar date normalize to
that same date); in particular "2025-01-02" and "2-Jan-2025" normalize
equal. -/
theorem toDate_idempotent_format_independent :
    (∀ (x : PyValue) (d : PyDate), toDate x = some d →
      toDate (PyValue.dateV d) = some d) ∧
    (∀ (s1 s2 : String) (d : PyDate), parseISO s1 = some d → parseDMY s2 = some d →
      toDate (PyValue.str s1) = some d ∧ toDate (PyValue.str s2) = some d) ∧
    toDate (PyValue.str "2025-01-02") = toDate (PyValue.str "2-Jan-2025") := by
  refine ⟨fun x d _ => rfl, fun s1 s2 d h1 h2 => ⟨?_, ?_⟩, by decide⟩
  · show tryStringParses s1 = some d
    unfold tryStringParses
    rw [h1]
  · show tryStringParses s2 = some d
    unfold tryStringParses
    rw [parseISO_eq_none_of_parseDMY s2 d h2, h2]

/-- Witness for C6 at "2025-01-02" and "2-Jan-2025". -/
theorem toDate_idempotent_format_independent_witness :
    toDate (PyValue.str "2025-01-02") = some ⟨2025, 1, 2⟩ ∧
    toDate (PyValue.str "2-Jan-2025") = some ⟨2025, 1, 2⟩ ∧
    toDate (PyValue.dateV ⟨2025, 1, 2⟩) = some ⟨2025, 1, 2⟩ := by
  obtain ⟨hidem, hfmt, _⟩ := toDate_idempotent_format_independent
  obtain ⟨ha, hb⟩ := hfmt "2025-01-02" "2-Jan-2025" ⟨2025, 1, 2⟩ (by decide) (by decide)
  exact ⟨ha, hb, hidem (PyValue.str "2025-01-02") ⟨2025, 1, 2⟩ ha⟩

/-- Unfolding equation of the maximal-run replacement on the empty list. -/
theorem collapseMaximalRuns_nil (bad : Char → Bool) :
    collapseMaximalRuns bad [] = [] := by
  rw [collapseMaximalRuns]

/-- Unfolding equation of the maximal-run replacement on a cons cell. -/
theorem collapseMaximalRuns_cons (bad : Char → Bool) (c : Char) (cs : List Char) :
    collapseMaximalRuns bad (c :: cs) =
      if bad c then '_' :: collapseMaximalRuns bad (cs.dropWhile bad)
      else c :: collapseMaximalRuns bad cs := by
  rw [collapseMaximalRuns]

/-- The regex scan and the maximal-run replacement agree: outside a run they
produce the run replacement of the remaining input, inside a run they
produce the run replacement of the input with the run's remainder dropped. -/
theorem reSub_eq_collapse (bad : Char → Bool) : ∀ cs : List Char,
    reSub bad cs false = collapseMaximalRuns bad cs ∧
    reSub bad cs true = collapseMaximalRuns bad (cs.dropWhile bad) := by
  intro cs
  induction cs with
  | nil => exact ⟨(collapseMaximalRuns_nil bad).symm, (collapseMaximalRuns_nil bad).symm⟩
  | cons c cs ih =>
      by_cases hc : bad c = true
      · simp only [reSub, hc, List.dropWhile_cons_of_pos hc, if_true,
          Bool.false_eq_true, if_false]
        constructor
        · rw [ih.2, collapseMaximalRuns_cons, if_pos hc]
        · exact ih.2
      · simp only [reSub, hc, Bool.false_eq_true, if_false, if_true,
          List.dropWhile_cons_of_neg hc]
        constructor
        · rw [ih.1, collapseMaximalRuns_cons, if_neg hc]
        · rw [ih.1, collapseMaximalRuns_cons, if_neg hc]

/-- C8 (amended): sanitization strips surrounding whitespace, replaces every
maximal run of characters outside the class [letters, digits, underscore,
hyphen, period, space] by a single underscore, collapses every remaining
whitespace run to a single underscore, and truncates to 150 characters. -/
theorem sanitize_filename_eq_amended :
    ∀ s : String, sanitize_filename s = sanitizeAmended s := by
  intro s
  unfold sanitize_filename sanitizeAmended
  rw [(reSub_eq_collapse (fun c => !isAllowedChar c) (pyStrip s.data)).1,
    (reSub_eq_collapse isPySpace
      (collapseMaximalRuns (fun c => !isAllowedChar c) (pyStrip s.data))).1]

/-- Counterexample to C8 as stated: on "a!!b" the code collapses the run of
two disallowed characters to one underscore, while per-character
replacement would give two. -/
theorem sanitize_filename_claim_counterexample :
    sanitize_filename "a!!b" = "a_b" ∧ sanitizeClaimed "a!!b" = "a__b" ∧
    ((sanitize_filename "a!!b" == sanitizeClaimed "a!!b") = false) := by
  refine ⟨by decide, ?_, ?_⟩
  · unfold sanitizeClaimed
    rw [← (reSub_eq_collapse isPySpace (subBadEach (pyStrip "a!!b".data))).1]
    decide
  · unfold sanitizeClaimed
    rw [← (reSub_eq_collapse isPySpace (subBadEach (pyStrip "a!!b".data))).1]
    decide

/-- Decimal digit characters are distinct for distinct digit values. -/
theorem decDigit_inj : ∀ d1 < 10, ∀ d2 < 10, decDigit d1 = decDigit d2 → d1 = d2 := by
  decide

/-- Unfolding equation of the decimal rendering below 10. -/
theorem natDecimal_lt (n : Nat) (h : n < 10) : natDecimal n = [decDigit n] := by
  rw [natDecimal, if_pos h]

/-- Unfolding equation of the decimal rendering at 10 and above. -/
theorem natDecimal_ge (n : Nat) (h : ¬n < 10) :
    natDecimal n = natDecimal (n / 10) ++ [decDigit (n % 10)] := by
  rw [natDecimal]
  exact if_neg h

/-- The decimal rendering is never empty. -/
theorem natDecimal_length_pos (n : Nat) : 0 < (natDecimal n).length := by
  by_cases h : n < 10
  · rw [natDecimal_lt n h]
    simp
  · rw [natDecimal_ge n h]
    simp

/-- Distinct numbers have distinct decimal renderings. -/
theorem natDecimal_injective : ∀ m n : Nat, natDecimal m = natDecimal n → m = n := by
  intro m
  induction m using Nat.strong_induction_on with
  | _ m ih =>
      intro n h
      by_cases hm : m < 10 <;> by_cases hn : n < 10
      · rw [natDecimal_lt m hm, natDecimal_lt n hn] at h
        exact decDigit_inj m hm n hn (by injection h)
      · rw [natDecimal_lt m hm, natDecimal_ge n hn] at h
        have hlen := congrArg List.length h
        have := natDecimal_length_pos (n / 10)
        simp only [List.length_append, List.length_cons, List.length_nil] at hlen
        omega
      · rw [natDecimal_ge m hm, natDecimal_lt n hn] at h
        have hlen := congrArg List.length h
        have := natDecimal_length_pos (m / 10)
        simp only [List.length_append, List.length_cons, List.length_nil] at hlen
        omega
      · rw [natDecimal_ge m hm, natDecimal_ge n hn] at h
        have hlen := congrArg List.length h
        simp at hlen
        obtain ⟨hpre, hlast⟩ := List.append_inj h (by simpa using hlen)
        have hdiv : m / 10 = n / 10 :=
          ih (m / 10) (Nat.div_lt_self (by omega) (by omega)) (n / 10) hpre
        have hmod : m % 10 = n % 10 := by
          have hd : decDigit (m % 10) = decDigit (n % 10) := by injection hlast
          exact decDigit_inj (m % 10) (Nat.mod_lt m (by omega)) (n % 10)
            (Nat.mod_lt n (by omega)) hd
        omega

/-- Candidate filenames for distinct counters are distinct (the counter is
rendered between fixed separators, and decimal rendering is injective). -/
theorem candidateName_inj (base ext : String) :
    ∀ i j : Nat, candidateName base ext i = candidateName base ext j → i = j := by
  have hdata : ∀ a b : String, (a ++ b).data = a.data ++ b.data := String.data_append
  have hu : ("__" : String).data = ['_', '_'] := rfl
  intro i j h
  unfold candidateName at h
  by_cases hi : i = 0 <;> by_cases hj : j = 0
  · omega
  · rw [if_pos hi, if_neg hj] at h
    have hd := congrArg String.data h
    simp only [hdata, hu] at hd
    have hlen := congrArg List.length hd
    have := natDecimal_length_pos j
    simp [String.mk] at hlen
    omega
  · rw [if_neg hi, if_pos hj] at h
    have hd := congrArg String.data h
    simp only [hdata, hu] at hd
    have hlen := congrArg List.length hd
    have := natDecimal_length_pos i
    simp [String.mk] at hlen
    omega
  · rw [if_neg hi, if_neg hj] at h
    have hd := congrArg String.data h
    simp only [hdata, hu, List.append_assoc] at hd
    have h1 := List.append_cancel_left hd
    have h2 := List.append_cancel_left h1
    exact natDecimal_injective i j (List.append_cancel_right h2)

/-- Pigeonhole: among the first length-plus-one candidates there is one that
is not yet present in the date folder, so the collision loop terminates
within the fuel granted to it. -/
theorem exists_fresh_candidate (fs : List String) (base ext : String) :
    ∃ j, j ≤ fs.length ∧ candidateName base ext j ∉ fs := by
  by_contra hcon
  push_neg at hcon
  have hsub : (Finset.range (fs.length + 1)).image (candidateName base ext) ⊆
      fs.toFinset := by
    intro x hx
    simp only [Finset.mem_image, Finset.mem_range] at hx
    obtain ⟨j, hj, rfl⟩ := hx
    exact List.mem_toFinset.mpr (hcon j (by omega))
  have hcard := Finset.card_le_card hsub
  rw [Finset.card_image_of_injOn (fun a _ b _ hab => candidateName_inj base ext a b hab),
    Finset.card_range] at hcard
  have := fs.toFinset_card_le
  omega

/-- The collision loop returns a path outside the folder whenever a free
candidate lies within its fuel. -/
theorem resolveStoredAux_not_mem (fs : List String) (base ext : String) :
    ∀ fuel k, (∃ j, j < fuel ∧ candidateName base ext (k + j) ∉ fs) →
      resolveStoredAux fs base ext fuel k ∉ fs := by
  intro fuel
  induction fuel with
  | zero =>
      intro k hex
      obtain ⟨j, hj, _⟩ := hex
      omega
  | succ fuel ih =>
      intro k hex
      obtain ⟨j, hj, hfree⟩ := hex
      rw [resolveStoredAux]
      by_cases hmem : candidateName base ext k ∈ fs
      · rw [if_pos hmem]
        apply ih (k + 1)
        cases j with
        | zero => exact absurd hmem (by simpa using hfree)
        | succ j2 =>
            refine ⟨j2, by omega, ?_⟩
            rw [show k + 1 + j2 = k + (j2 + 1) from by omega]
            exact hfree
      · rw [if_neg hmem]
        exact hmem

/-- C7: the upload store never returns a path already taken in the date
folder, so storing a second file with the same sanitized name yields a
different stored path; concretely, "Bob" with "receipt.pdf" stores as
Bob__receipt.pdf and, when that exists, as Bob__receipt__1.pdf. -/
theorem storeBillPath_no_overwrite :
    (∀ (fs : List String) (filename : String),
      fs.contains (storeBillPath fs filename) = false) ∧
    (∀ (fs : List String) (filename : String),
      (storeBillPath (storeBillPath fs filename :: fs) filename ==
        storeBillPath fs filename) = false) ∧
    storedFilename "Bob" "receipt.pdf" = "Bob__receipt.pdf" ∧
    storeBillPath [] "Bob__receipt.pdf" = "Bob__receipt.pdf" ∧
    storeBillPath ["Bob__receipt.pdf"] "Bob__receipt.pdf" = "Bob__receipt__1.pdf" := by
  have hmain : ∀ (fs : List String) (filename : String), storeBillPath fs filename ∉ fs := by
    intro fs filename
    unfold storeBillPath
    apply resolveStoredAux_not_mem
    obtain ⟨j, hj, hfree⟩ :=
      exists_fresh_candidate fs (splitext filename).1 (splitext filename).2
    exact ⟨j, by omega, by simpa using hfree⟩
  refine ⟨fun fs f => by simpa using hmain fs f, fun fs f => ?_, by decide, by decide, ?_⟩
  · have h2 := hmain (storeBillPath fs f :: fs) f
    have hne : storeBillPath (storeBillPath fs f :: fs) f ≠ storeBillPath fs f := by
      intro heq
      apply h2
      rw [heq]
      exact List.mem_cons_self _ _
    exact beq_eq_false_iff_ne.mpr hne
  · have hone : natDecimal 1 = ['1'] := by
      rw [natDecimal]
      decide
    have step : storeBillPath ["Bob__receipt.pdf"] "Bob__receipt.pdf" =
        resolveStoredAux ["Bob__receipt.pdf"] "Bob__receipt" ".pdf" (1 + 1) 0 := rfl
    rw [step, resolveStoredAux, if_pos (by decide), resolveStoredAux,
      if_neg (by rw [show (0 + 1) = 1 from rfl, candidateName, if_neg (by decide), hone]; decide),
      show (0 + 1) = 1 from rfl, candidateName, if_neg (by decide), hone]
    decide
